import Mathlib

/-!
Verification development for the fin-sentinel-pro backend (`src/app.py`).

Python strings are modelled as `List Char`, Python floats as exact
rationals (`ℚ`), and Python ints as `ℤ`.  The external narrative service
and the float-rendering of f-strings are parameters of the embedding.
-/

set_option maxRecDepth 100000

/-- `String.data` shorthand: a Python string literal as a `List Char`. -/
def lit (s : String) : List Char := s.data

/-- Python `int(x)` on a real value: truncation toward zero. -/
def truncQ (q : ℚ) : ℤ := if 0 ≤ q then ⌊q⌋ else -⌊-q⌋

/-- Python `round(x)` on a real value: round half to even. -/
def pyRound (q : ℚ) : ℤ :=
  if q - ⌊q⌋ < 1/2 then ⌊q⌋
  else if (1:ℚ)/2 < q - ⌊q⌋ then ⌊q⌋ + 1
  else if ⌊q⌋ % 2 = 0 then ⌊q⌋ else ⌊q⌋ + 1

/-- Python `round(x, 2)` on a real value. -/
def pyRound2 (q : ℚ) : ℚ := (pyRound (q * 100) : ℚ) / 100

/-- Python whitespace characters (for `str.strip`). -/
def isPySpace (c : Char) : Bool :=
  c = ' ' || c = '\t' || c = '\n' || c = '\r' || c = '\x0b' || c = '\x0c'

/-- Python `str.strip()`: drop leading and trailing whitespace. -/
def pyStrip (l : List Char) : List Char :=
  ((l.dropWhile isPySpace).reverse.dropWhile isPySpace).reverse

/-- A regex word character `\w` (ASCII fragment): letter, digit or underscore. -/
def isWordC (c : Char) : Bool := c.isAlphanum || c = '_'

/-- A character of the email character class `[\w.-]`. -/
def isEmailC (c : Char) : Bool := isWordC c || c = '.' || c = '-'

/-- `[789]\d{9}` at the head of the list (the bare 10-digit phone body). -/
def isPhoneBare (l : List Char) : Bool :=
  match l with
  | c :: rest =>
    (c = '7' || c = '8' || c = '9') &&
      ((rest.take 9).length = 9 && (rest.take 9).all Char.isDigit)
  | [] => false

/-- Leftmost match of `(\+91|0)?[789]\d{9}` anchored at the head: returns the
matched length (13, 11 or 10), trying the alternatives in regex order. -/
def matchPhone (l : List Char) : Option Nat :=
  match l with
  | '+' :: '9' :: '1' :: rest => if isPhoneBare rest then some 13 else none
  | '0' :: rest => if isPhoneBare rest then some 11 else none
  | _ => if isPhoneBare l then some 10 else none

/-- Match of `\b\d{9,18}\b` anchored at the head (the `\b` on the left is
checked by the caller via the previous-character state): a maximal digit run
of length 9 to 18 followed by a non-word character or the end. -/
def matchAcc (l : List Char) : Option Nat :=
  let r := (l.takeWhile Char.isDigit).length
  if 9 ≤ r ∧ r ≤ 18 ∧ (match l.drop r with
      | [] => true
      | d :: _ => !isWordC d) = true
  then some r else none

/-- Match of `[A-Z]{5}[0-9]{4}[A-Z]{1}` anchored at the head (length 10):
five uppercase letters, four digits and one uppercase letter. -/
def matchPan (l : List Char) : Option Nat :=
  if (l.take 5).all Char.isUpper ∧ (l.take 5).length = 5 ∧
      ((l.drop 5).take 4).all Char.isDigit ∧ ((l.drop 5).take 4).length = 4 ∧
      ((l.drop 9).take 1).all Char.isUpper ∧ ((l.drop 9).take 1).length = 1
  then some 10 else none

/-- The backtracking choice for the domain part `[\w.-]+\.\w+` inside the
maximal class run `dom`: the largest index `k ≥ 1` holding a `'.'` followed
by a word character.  Returns the length matched inside `dom`. -/
def domSplit (dom : List Char) : Option Nat :=
  match ((List.range dom.length).filter (fun k =>
      decide (1 ≤ k) && (dom.getD k ' ' = '.') && isWordC (dom.getD (k+1) ' '))).foldl
      (fun _ k => some k) none with
  | some k => some (k + 1 + ((dom.drop (k+1)).takeWhile isWordC).length)
  | none => none

/-- Match of `[\w.-]+@[\w.-]+\.\w+` anchored at the head: greedy local part up
to an `'@'`, then the domain with the greedy (rightmost-dot) split. -/
def matchEmail (l : List Char) : Option Nat :=
  let loc := l.takeWhile isEmailC
  if loc.isEmpty then none
  else
    match l.drop loc.length with
    | '@' :: rest2 =>
      match domSplit (rest2.takeWhile isEmailC) with
      | some k => some (loc.length + 1 + k)
      | none => none
    | _ => none

/-- One `re.sub` pass: scan left to right, replacing each leftmost
non-overlapping match (whose total length the matcher returns) by `token`.
The fuel argument is instantiated with the list length, which suffices
because every step consumes at least one input character. -/
def subF (m : List Char → Option Nat) (token : List Char) :
    Nat → List Char → List Char
  | 0, l => l
  | _ + 1, [] => []
  | f + 1, c :: rest =>
    match m (c :: rest) with
    | some n => token ++ subF m token f (List.drop (n - 1) rest)
    | none => c :: subF m token f rest

/-- The `re.sub` pass for `\b\d{9,18}\b`, threading whether the previous
character was a word character (for the left word boundary). -/
def subAccF (token : List Char) : Nat → Bool → List Char → List Char
  | 0, _, l => l
  | _ + 1, _, [] => []
  | f + 1, prevW, c :: rest =>
    match (if prevW then none else matchAcc (c :: rest)) with
    | some n => token ++ subAccF token f false (List.drop (n - 1) rest)
    | none => c :: subAccF token f (isWordC c) rest

/-- `mask_pii` from `src/app.py`: the four sequential redaction passes
(phone, account number, PAN, email), with the empty-text short circuit. -/
def mask_pii (text : List Char) : List Char :=
  if text = [] then []
  else
    let t1 := subF matchPhone (lit "[PHONE_HIDDEN]") text.length text
    let t2 := subAccF (lit "[ACC_HIDDEN]") t1.length false t1
    let t3 := subF matchPan (lit "[PAN_HIDDEN]") t2.length t2
    subF matchEmail (lit "[EMAIL_HIDDEN]") t3.length t3

/-- Does `\b\d{9,18}\b` match anywhere in the list? -/
def hasAccF : Nat → Bool → List Char → Bool
  | 0, _, _ => false
  | _ + 1, _, [] => false
  | f + 1, prevW, c :: rest =>
    (!prevW && (matchAcc (c :: rest)).isSome) || hasAccF f (isWordC c) rest

/-- Whole-string test for a remaining `\b\d{9,18}\b` account pattern. -/
def hasAccPattern (l : List Char) : Bool := hasAccF l.length false l

/-- The industry benchmark table of `run_financial_audit`
(`dict.get` with default `0.2`). -/
def benchmarks (industry : List Char) : ℚ :=
  if industry = lit "Manufacturing" then 0.25
  else if industry = lit "Retail" then 0.12
  else if industry = lit "Services" then 0.35
  else if industry = lit "Agri" then 0.15
  else 0.2

/-- The result tuple `(score, margin, loan, runway)` of `run_financial_audit`. -/
structure AuditResult where
  score : ℤ
  margin : ℚ
  loan : List Char
  runway : ℤ
deriving Repr, DecidableEq

/-- `run_financial_audit` from `src/app.py` (floats as exact rationals,
Python `int(...)` as truncation toward zero, `round` as half-to-even). -/
def run_financial_audit (income expense : ℚ) (industry : List Char) :
    AuditResult :=
  let margin : ℚ := if income > 0 then (income - expense) / income else 0
  let target : ℚ := benchmarks industry
  let score : ℤ := max 0 (min (truncQ (margin / target * 100)) 100)
  let loan : List Char :=
    if score ≥ 85 then lit "SBI/HDFC - CGTMSE Collateral-Free"
    else if score ≥ 60 then lit "LendingKart - Working Capital (NBFC)"
    else lit "MUDRA Scheme - Govt Grant"
  let runway : ℤ := if expense > 0 then pyRound (income / expense * 30) else 365
  ⟨score, margin, loan, runway⟩

/-- Python `str(z)` for an integer, as a character list. -/
def intStr (z : ℤ) : List Char := (toString z).data

/-- The prompt built by `generate_ai_narrative` (lines 65-79 of
`src/app.py`); `render` models the f-string formatting of floats. -/
def promptFor (render : ℚ → List Char) (income expense margin : ℚ)
    (score : ℤ) (industry : List Char) (runway : ℤ) (raw : List Char) :
    List Char :=
  lit "You are a Senior Financial SME Consultant. Write a high-value Strategic Audit Report for a business in the " ++
  industry ++
  lit " sector.\n\nMETRICS:\n- Monthly Revenue: INR " ++
  render income ++
  lit "\n- Monthly Expenses: INR " ++
  render expense ++
  lit "\n- Profit Margin: " ++
  render (pyRound2 (margin * 100)) ++
  lit "%\n- Health Score: " ++
  intStr score ++
  lit "/100\n- Est. Cash Runway: " ++
  intStr runway ++
  lit " Days\n\nCONTEXTUAL DATA:\n" ++
  mask_pii (List.take 2000 raw) ++
  lit "\n\nSTRUCTURE YOUR RESPONSE EXACTLY LIKE THIS:\n1. RISK ANALYSIS: Detailed breakdown of the score and burn rate.\n2. 3-MONTH FORECAST: Specific predictions based on the runway.\n3. GROWTH STRATEGY: One industry-specific cost saving and one expansion tip.\n"

/-- The deterministic fallback summary of `generate_ai_narrative`
(lines 93-98 of `src/app.py`). -/
def fallbackText (render : ℚ → List Char) (income expense : ℚ) (score : ℤ)
    (industry : List Char) (runway : ℤ) : List Char :=
  lit "EXECUTIVE AUDIT SUMMARY:\nThe business is operating in the " ++
  industry ++
  lit " sector with a health score of " ++
  intStr score ++
  lit "/100. With a monthly revenue of INR " ++
  render income ++
  lit " and expenses of INR " ++
  render expense ++
  lit ", the current cash runway is approximately " ++
  intStr runway ++
  lit " days. Strategy: Focus on reducing fixed costs."

/-- `generate_ai_narrative` from `src/app.py`.  The external service is the
parameter `svc`: `none` models a raised exception (caught by the
`try`/`except`), `some t` a response whose `.text` is `t`; the Python
truthiness test `if response.text:` is the emptiness test on `t`. -/
def generate_ai_narrative (svc : List Char → Option (List Char))
    (render : ℚ → List Char) (income expense margin : ℚ) (score : ℤ)
    (industry : List Char) (runway : ℤ) (raw : List Char) : List Char :=
  match svc (promptFor render income expense margin score industry runway raw) with
  | some t =>
    if t ≠ [] then pyStrip t
    else fallbackText render income expense score industry runway
  | none => fallbackText render income expense score industry runway

/-- The character class kept by `re.sub(r'[^\d.-]', '', …)` in `clean_num`. -/
def keepChar (c : Char) : Bool := c.isDigit || c = '.' || c = '-'

/-- Decimal digit-string value (`foldl` over the characters). -/
def natVal (l : List Char) : ℕ :=
  l.foldl (fun n c => 10 * n + (c.toNat - 48)) 0

/-- Python `float(s)` on an unsigned residue of digits, dots and dashes:
digits, then optionally a dot and a digit tail; at least one digit. -/
def parseUnsigned (l : List Char) : Option ℚ :=
  let a := l.takeWhile Char.isDigit
  let r := l.dropWhile Char.isDigit
  if r.isEmpty then (if a.isEmpty then none else some (natVal a : ℚ))
  else if r.head? = some '.' then
    (if (r.drop 1).all Char.isDigit ∧ (a ≠ [] ∨ r.drop 1 ≠ []) then
      some ((natVal a : ℚ) + (natVal (r.drop 1) : ℚ) / 10 ^ (r.drop 1).length)
    else none)
  else none

/-- Python `float(s)` on a stripped residue: one optional leading minus. -/
def parseFloatPy (l : List Char) : Option ℚ :=
  if l.head? = some '-' then (parseUnsigned (l.drop 1)).map (fun q => -q)
  else parseUnsigned l

/-- `clean_num` from `src/app.py`: `None` maps to `0.0`; otherwise strip
every character outside `[\d.-]` and parse, with `0.0` on parse failure. -/
def clean_num (val : Option (List Char)) : ℚ :=
  match val with
  | none => 0
  | some s =>
    match parseFloatPy (s.filter keepChar) with
    | some q => q
    | none => 0

/-- The coerced `clean_amt` column of the `analyze` endpoint. -/
def cleanAmts (cells : List (Option (List Char))) : List ℚ :=
  cells.map clean_num

/-- `income` in `analyze`: the sum of the strictly positive coerced amounts. -/
def incomeOf (cells : List (Option (List Char))) : ℚ :=
  ((cleanAmts cells).filter (fun a => decide (0 < a))).sum

/-- `expense` in `analyze` before the fallback: the absolute value of the sum
of the strictly negative coerced amounts. -/
def rawExpenseOf (cells : List (Option (List Char))) : ℚ :=
  |((cleanAmts cells).filter (fun a => decide (a < 0))).sum|

/-- `expense` in `analyze` after the `income * 0.7` fallback
(line 143 of `src/app.py`). -/
def expenseOf (cells : List (Option (List Char))) : ℚ :=
  if rawExpenseOf cells = 0 ∧ 0 < incomeOf cells then incomeOf cells * 0.7
  else rawExpenseOf cells

/-- A JSON-able value of the result payload. -/
inductive JVal where
  | num (q : ℚ)
  | int (z : ℤ)
  | str (s : List Char)
deriving Repr

/-- The result payload of a successful `analyze` run
(lines 155-158 of `src/app.py`), as an ordered key/value list. -/
def analyzePayload (svc : List Char → Option (List Char))
    (render : ℚ → List Char) (cells : List (Option (List Char)))
    (industry raw : List Char) : List (String × JVal) :=
  let income := incomeOf cells
  let expense := expenseOf cells
  let r := run_financial_audit income expense industry
  let report := generate_ai_narrative svc render income expense r.margin
    r.score industry r.runway raw
  [("income", JVal.num income), ("expense", JVal.num expense),
   ("score", JVal.int r.score), ("loan", JVal.str r.loan),
   ("report_en", JVal.str report), ("runway", JVal.int r.runway)]

/-- Spec-side margin: `(income - expense) / income` if `income > 0`, else 0. -/
def marginSpec (income expense : ℚ) : ℚ :=
  if income > 0 then (income - expense) / income else 0

/-- Spec-side benchmark lookup (same fixed table, default `0.20`). -/
def benchmarkSpec (industry : List Char) : ℚ :=
  if industry = lit "Manufacturing" then 0.25
  else if industry = lit "Retail" then 0.12
  else if industry = lit "Services" then 0.35
  else if industry = lit "Agri" then 0.15
  else 0.20

/-- Modelled from the spec's words: `clamp(round((margin / benchmark) * 100), 0, 100)`. -/
def healthScoreSpec (income expense : ℚ) (industry : List Char) : ℤ :=
  max 0 (min (pyRound (marginSpec income expense / benchmarkSpec industry * 100)) 100)

/-- Substring containment: `sub` occurs contiguously inside `s`. -/
def containsSub (s sub : List Char) : Prop := ∃ pre post, s = pre ++ sub ++ post

/-- Spec-side validity of an unsigned decimal residue: only digits and at
most one dot, with at least one digit. -/
def isDecCore (l : List Char) : Bool :=
  l.all (fun c => c.isDigit || c = '.') && l.count '.' ≤ 1 && l.any Char.isDigit

/-- The digit tail after the (first) dot. -/
def afterDot (l : List Char) : List Char :=
  (l.dropWhile (fun c => !(c = '.' : Bool))).drop 1

/-- Spec-side value of a valid unsigned decimal residue. -/
def decCoreVal (l : List Char) : ℚ :=
  (natVal (l.filter Char.isDigit) : ℚ) / 10 ^ (afterDot l).length

/-- Modelled from the spec's words for `clean_num`: strip every character
that is not a digit, `.` or `-`, parse the remainder as a decimal with one
optional leading sign, and return `0.0` on any parse failure. -/
def clean_num_spec (val : Option (List Char)) : ℚ :=
  match val with
  | none => 0
  | some s =>
    let res := s.filter keepChar
    let core := if res.head? = some '-' then res.drop 1 else res
    let sign : ℚ := if res.head? = some '-' then -1 else 1
    if isDecCore core then sign * decCoreVal core else 0

/-! ## Helper lemmas -/

theorem benchmarks_pos (industry : List Char) : 0 < benchmarks industry := by
  rw [benchmarks]
  split_ifs <;> norm_num

theorem truncQ_mono {a b : ℚ} (h : a ≤ b) : truncQ a ≤ truncQ b := by
  rw [truncQ, truncQ]
  split_ifs with ha hb hb
  · exact Int.floor_mono h
  · exact absurd (ha.trans h) hb
  · have h1 : 0 ≤ ⌊-a⌋ + 1 := by
      have : (-1 : ℚ) < -a := by
        have : a < 0 := lt_of_not_le ha
        linarith
      have := Int.lt_floor_add_one (-a)
      have h2 : (-1 : ℤ) ≤ ⌊-a⌋ := by
        by_contra hc
        push_neg at hc
        have : (⌊-a⌋ : ℚ) < -1 := by exact_mod_cast hc
        have := Int.floor_le (-a)
        linarith [Int.floor_le (-a)]
      omega
    have h2 : 0 ≤ ⌊b⌋ := Int.floor_nonneg.mpr hb
    have h3 : ⌊-a⌋ = -Int.ceil a := by rw [Int.floor_neg]
    have h4 : 0 ≤ Int.ceil a → True := fun _ => trivial
    -- since a < 0, ⌊-a⌋ ≥ 0, so -⌊-a⌋ ≤ 0 ≤ ⌊b⌋
    have ha' : a < 0 := lt_of_not_le ha
    have h5 : 0 ≤ ⌊-a⌋ := Int.floor_nonneg.mpr (by linarith)
    omega
  · exact neg_le_neg (Int.floor_mono (by linarith))

theorem benchmarks_eq_spec (industry : List Char) :
    benchmarks industry = benchmarkSpec industry := by
  rw [benchmarks, benchmarkSpec]
  split_ifs <;> norm_num

theorem audit_score_eq (income expense : ℚ) (industry : List Char) :
    (run_financial_audit income expense industry).score
      = max 0 (min (truncQ ((if income > 0 then (income - expense) / income else 0)
          / benchmarks industry * 100)) 100) := rfl

theorem audit_margin_eq (income expense : ℚ) (industry : List Char) :
    (run_financial_audit income expense industry).margin
      = (if income > 0 then (income - expense) / income else 0) := rfl

theorem audit_loan_eq (income expense : ℚ) (industry : List Char) :
    (run_financial_audit income expense industry).loan
      = (if (run_financial_audit income expense industry).score ≥ 85
          then lit "SBI/HDFC - CGTMSE Collateral-Free"
         else if (run_financial_audit income expense industry).score ≥ 60
          then lit "LendingKart - Working Capital (NBFC)"
         else lit "MUDRA Scheme - Govt Grant") := rfl

theorem truncQ_500_9 : truncQ (500/9) = 55 := by
  rw [truncQ, if_pos (by norm_num)]
  rw [Int.floor_eq_iff] <;> norm_num

theorem pyRound_500_9 : pyRound (500/9) = 56 := by
  rw [pyRound]
  rw [show ⌊(500/9 : ℚ)⌋ = 55 by rw [Int.floor_eq_iff] <;> norm_num]
  norm_num

theorem bench_default : benchmarks (lit "X") = 0.2 := by
  rw [benchmarks, if_neg (by decide), if_neg (by decide), if_neg (by decide),
    if_neg (by decide)]

theorem bench_retail : benchmarks (lit "Retail") = 0.12 := by
  rw [benchmarks, if_neg (by decide), if_pos (by decide)]

theorem score_9_8_X : (run_financial_audit 9 8 (lit "X")).score = 55 := by
  rw [audit_score_eq, bench_default, if_pos (by norm_num)]
  rw [show ((9:ℚ) - 8) / 9 / 0.2 * 100 = 500/9 by norm_num]
  rw [truncQ_500_9]
  decide

theorem score_100_0_Retail :
    (run_financial_audit 100 0 (lit "Retail")).score = 100 := by
  rw [audit_score_eq, bench_retail, if_pos (by norm_num)]
  rw [show ((100:ℚ) - 0) / 100 / 0.12 * 100 = 2500/3 by norm_num]
  rw [show truncQ (2500/3) = 833 by
    rw [truncQ, if_pos (by norm_num)]
    rw [Int.floor_eq_iff] <;> norm_num]
  decide

theorem score_0_0_Retail :
    (run_financial_audit 0 0 (lit "Retail")).score = 0 := by
  rw [audit_score_eq, bench_retail, if_neg (by norm_num)]
  rw [show (0:ℚ) / 0.12 * 100 = 0 by norm_num]
  rw [show truncQ 0 = 0 by rw [truncQ, if_pos le_rfl]; simp]
  decide

theorem score_50_43_X : (run_financial_audit 50 43 (lit "X")).score = 70 := by
  rw [audit_score_eq, bench_default, if_pos (by norm_num)]
  rw [show ((50:ℚ) - 43) / 50 / 0.2 * 100 = 70 by norm_num]
  rw [show truncQ 70 = 70 by
    rw [truncQ, if_pos (by norm_num)]
    rw [Int.floor_eq_iff] <;> norm_num]
  decide

/-! ## C1 -/

/-- C1 counterexample: at income 9, expense 8 and an unknown industry the
code's health score (Python `int` truncation) is 55, while the claimed
formula `clamp(round((margin / benchmark) * 100), 0, 100)` gives 56. -/
theorem c1_counterexample :
    (run_financial_audit 9 8 (lit "X")).score ≠ healthScoreSpec 9 8 (lit "X") := by
  rw [score_9_8_X]
  rw [healthScoreSpec, marginSpec, if_pos (by norm_num)]
  rw [show benchmarkSpec (lit "X") = 0.2 by
    rw [benchmarkSpec, if_neg (by decide), if_neg (by decide), if_neg (by decide),
      if_neg (by decide)]
    norm_num]
  rw [show ((9:ℚ) - 8) / 9 / 0.2 * 100 = 500/9 by norm_num]
  rw [pyRound_500_9]
  decide

/-- C1 (amended): the scorer computes `margin = (income - expense) / income`
when `income > 0` and `0` otherwise, looks up the benchmark in the fixed
table with default `0.2`, and returns
`healthScore = clamp(trunc((margin / benchmark) * 100), 0, 100)` — Python
`int()` truncation toward zero, not rounding — an integer in `[0, 100]`. -/
theorem c1_amended (income expense : ℚ) (industry : List Char) :
    (run_financial_audit income expense industry).score
      = max 0 (min (truncQ (marginSpec income expense
          / benchmarkSpec industry * 100)) 100) ∧
    0 ≤ (run_financial_audit income expense industry).score ∧
    (run_financial_audit income expense industry).score ≤ 100 := by
  refine ⟨?_, le_max_left _ _, max_le (by norm_num) (min_le_right _ _)⟩
  rw [audit_score_eq, benchmarks_eq_spec, marginSpec]

/-! ## C2 -/

/-- C2 counterexample: at income 100, expense 0, industry "Retail" the
health score is 100 (≥ 85), but the loan label is
"SBI/HDFC - CGTMSE Collateral-Free", not the claimed policy string
"collateral-free tier A". -/
theorem c2_counterexample :
    85 ≤ (run_financial_audit 100 0 (lit "Retail")).score ∧
    (run_financial_audit 100 0 (lit "Retail")).loan ≠ lit "collateral-free tier A" := by
  constructor
  · rw [score_100_0_Retail]; decide
  · rw [audit_loan_eq, score_100_0_Retail, if_pos (by decide)]
    decide

/-- C2 (amended): the tiering thresholds are as claimed (`≥ 85`, `≥ 60`,
else), but the verbatim policy strings of the code are
"SBI/HDFC - CGTMSE Collateral-Free", "LendingKart - Working Capital (NBFC)"
and "MUDRA Scheme - Govt Grant". -/
theorem c2_amended (income expense : ℚ) (industry : List Char) :
    (85 ≤ (run_financial_audit income expense industry).score →
      (run_financial_audit income expense industry).loan
        = lit "SBI/HDFC - CGTMSE Collateral-Free") ∧
    (60 ≤ (run_financial_audit income expense industry).score →
      (run_financial_audit income expense industry).score < 85 →
      (run_financial_audit income expense industry).loan
        = lit "LendingKart - Working Capital (NBFC)") ∧
    ((run_financial_audit income expense industry).score < 60 →
      (run_financial_audit income expense industry).loan
        = lit "MUDRA Scheme - Govt Grant") := by
  refine ⟨fun h => ?_, fun h1 h2 => ?_, fun h => ?_⟩
  · rw [audit_loan_eq, if_pos h]
  · rw [audit_loan_eq, if_neg (by omega), if_pos h1]
  · rw [audit_loan_eq, if_neg (by omega), if_neg (by omega)]

/-- C2 witness: the three tiers exercised at concrete inputs
(scores 100, 70 and 0). -/
theorem c2_witness :
    (run_financial_audit 100 0 (lit "Retail")).loan
      = lit "SBI/HDFC - CGTMSE Collateral-Free" ∧
    (run_financial_audit 50 43 (lit "X")).loan
      = lit "LendingKart - Working Capital (NBFC)" ∧
    (run_financial_audit 0 0 (lit "Retail")).loan
      = lit "MUDRA Scheme - Govt Grant" :=
  ⟨(c2_amended 100 0 (lit "Retail")).1 (by rw [score_100_0_Retail]; decide),
   (c2_amended 50 43 (lit "X")).2.1 (by rw [score_50_43_X]; decide)
     (by rw [score_50_43_X]; decide),
   (c2_amended 0 0 (lit "Retail")).2.2 (by rw [score_0_0_Retail]; decide)⟩

/-! ## C9 -/

/-- C9: for a fixed industry the health score is monotone in the margin —
if the margin of the first income/expense pair is at most that of the
second, the first health score is at most the second (the `[0,100]` clamp
and the truncation both preserve order). -/
theorem c9_monotone (i1 e1 i2 e2 : ℚ) (industry : List Char)
    (h : (run_financial_audit i1 e1 industry).margin
        ≤ (run_financial_audit i2 e2 industry).margin) :
    (run_financial_audit i1 e1 industry).score
      ≤ (run_financial_audit i2 e2 industry).score := by
  have ht : 0 < benchmarks industry := benchmarks_pos industry
  have hsc : ∀ i e : ℚ, (run_financial_audit i e industry).score
      = max 0 (min (truncQ ((run_financial_audit i e industry).margin
          / benchmarks industry * 100)) 100) := fun i e => rfl
  rw [hsc i1 e1, hsc i2 e2]
  apply max_le_max (le_refl 0)
  apply min_le_min _ (le_refl 100)
  apply truncQ_mono
  have h2 : (run_financial_audit i1 e1 industry).margin / benchmarks industry
      ≤ (run_financial_audit i2 e2 industry).margin / benchmarks industry := by
    rw [div_eq_mul_inv, div_eq_mul_inv]
    exact mul_le_mul_of_nonneg_right h (inv_nonneg.mpr ht.le)
  exact mul_le_mul_of_nonneg_right h2 (by norm_num)

/-- C9 witness: at industry "X", margins 1/20 ≤ 1/10 give ordered scores. -/
theorem c9_witness :
    (run_financial_audit 100 95 (lit "X")).margin
      ≤ (run_financial_audit 100 90 (lit "X")).margin ∧
    (run_financial_audit 100 95 (lit "X")).score
      ≤ (run_financial_audit 100 90 (lit "X")).score := by
  have hm : (run_financial_audit 100 95 (lit "X")).margin
      ≤ (run_financial_audit 100 90 (lit "X")).margin := by
    rw [audit_margin_eq, audit_margin_eq, if_pos (by norm_num), if_pos (by norm_num)]
    norm_num
  exact ⟨hm, c9_monotone 100 95 100 90 (lit "X") hm⟩

/-! ## C6 -/

/-- C6: when the coerced amounts contain no negative value and income is
positive, the expense used by the scorer is synthesized as `income * 0.7`. -/
theorem c6_expense_fallback (cells : List (Option (List Char)))
    (hpos : ∀ c ∈ cells, ¬ clean_num c < 0)
    (hinc : 0 < incomeOf cells) :
    expenseOf cells = incomeOf cells * 0.7 := by
  have hfil : (cleanAmts cells).filter (fun a => decide (a < 0)) = [] := by
    rw [List.filter_eq_nil_iff]
    intro a ha
    obtain ⟨c, hc, rfl⟩ := List.mem_map.mp ha
    simpa using hpos c hc
  have hre : rawExpenseOf cells = 0 := by
    rw [rawExpenseOf, hfil]
    simp
  rw [expenseOf, if_pos ⟨hre, hinc⟩]

/-- C6 witness: a one-row ledger with amount "50000" gives income 50000,
no negative amounts, and a synthesized expense of 35000. -/
theorem c6_witness :
    (∀ c ∈ [some (lit "50000")], ¬ clean_num c < 0) ∧
    0 < incomeOf [some (lit "50000")] ∧
    expenseOf [some (lit "50000")] = incomeOf [some (lit "50000")] * 0.7 ∧
    incomeOf [some (lit "50000")] = 50000 ∧
    expenseOf [some (lit "50000")] = 35000 := by
  have h50 : clean_num (some (lit "50000")) = 50000 := by decide
  have hpos : ∀ c ∈ [some (lit "50000")], ¬ clean_num c < 0 := by
    intro c hc
    rw [List.mem_singleton] at hc
    subst hc
    rw [h50]
    norm_num
  have hincome : incomeOf [some (lit "50000")] = 50000 := by
    rw [incomeOf, cleanAmts, List.map_cons, List.map_nil, h50]
    rw [List.filter_cons]
    norm_num
  have hinc0 : 0 < incomeOf [some (lit "50000")] := by
    rw [hincome]
    norm_num
  have hx := c6_expense_fallback [some (lit "50000")] hpos hinc0
  refine ⟨hpos, hinc0, hx, hincome, ?_⟩
  rw [hx, hincome]
  norm_num

/-! ## C10 -/

/-- C10: on every run, income (a sum of strictly positive coerced amounts)
and expense (either the absolute sum of the strictly negative amounts or
the `0.7 * income` fallback) are both non-negative. -/
theorem c10_nonneg (cells : List (Option (List Char))) :
    0 ≤ incomeOf cells ∧ 0 ≤ expenseOf cells ∧
    (expenseOf cells = rawExpenseOf cells ∨
      expenseOf cells = incomeOf cells * 0.7) := by
  have hinc : 0 ≤ incomeOf cells := by
    apply List.sum_nonneg
    intro a ha
    have h := of_decide_eq_true (List.mem_filter.mp ha).2
    exact h.le
  refine ⟨hinc, ?_, ?_⟩
  · rw [expenseOf]
    split_ifs with h
    · exact mul_nonneg hinc (by norm_num)
    · exact abs_nonneg _
  · rw [expenseOf]
    split_ifs with h
    · exact Or.inr rfl
    · exact Or.inl rfl

/-! ## C8 -/

/-- C8 counterexample: the payload keys are not the claimed six — the
narrative field is keyed "report_en", not "report". -/
theorem c8_counterexample :
    (analyzePayload (fun _ => none) (fun _ => []) [] [] []).map Prod.fst
      ≠ ["income", "expense", "score", "loan", "report", "runway"] := by
  decide

/-- C8 (amended): every successful run returns exactly the ordered fields
income (number), expense (number), score (integer), loan (string),
report_en (string), runway (integer). -/
theorem c8_amended (svc : List Char → Option (List Char))
    (render : ℚ → List Char) (cells : List (Option (List Char)))
    (industry raw : List Char) :
    ∃ (qi qe : ℚ) (zs : ℤ) (ls lr : List Char) (zr : ℤ),
      analyzePayload svc render cells industry raw
        = [("income", JVal.num qi), ("expense", JVal.num qe),
           ("score", JVal.int zs), ("loan", JVal.str ls),
           ("report_en", JVal.str lr), ("runway", JVal.int zr)] :=
  ⟨_, _, _, _, _, _, rfl⟩

/-! ## C4 -/

theorem fallbackText_ne_nil (render : ℚ → List Char) (income expense : ℚ)
    (score : ℤ) (industry : List Char) (runway : ℤ) :
    fallbackText render income expense score industry runway ≠ [] := by
  rw [fallbackText]
  rw [show lit "EXECUTIVE AUDIT SUMMARY:\nThe business is operating in the "
      = 'E' :: lit "XECUTIVE AUDIT SUMMARY:\nThe business is operating in the "
    from rfl]
  simp

theorem fallbackText_contains_industry (render : ℚ → List Char)
    (income expense : ℚ) (score : ℤ) (industry : List Char) (runway : ℤ) :
    containsSub (fallbackText render income expense score industry runway)
      industry := by
  refine ⟨lit "EXECUTIVE AUDIT SUMMARY:\nThe business is operating in the ",
    lit " sector with a health score of " ++ intStr score ++
    lit "/100. With a monthly revenue of INR " ++ render income ++
    lit " and expenses of INR " ++ render expense ++
    lit ", the current cash runway is approximately " ++ intStr runway ++
    lit " days. Strategy: Focus on reducing fixed costs.", ?_⟩
  rw [fallbackText]
  simp [List.append_assoc]

theorem fallbackText_contains_score (render : ℚ → List Char)
    (income expense : ℚ) (score : ℤ) (industry : List Char) (runway : ℤ) :
    containsSub (fallbackText render income expense score industry runway)
      (intStr score) := by
  refine ⟨lit "EXECUTIVE AUDIT SUMMARY:\nThe business is operating in the " ++
    industry ++ lit " sector with a health score of ",
    lit "/100. With a monthly revenue of INR " ++ render income ++
    lit " and expenses of INR " ++ render expense ++
    lit ", the current cash runway is approximately " ++ intStr runway ++
    lit " days. Strategy: Focus on reducing fixed costs.", ?_⟩
  rw [fallbackText]
  simp [List.append_assoc]

/-- C4 counterexample: when the external service returns the non-empty but
all-whitespace text " ", the Python truthiness test passes and the function
returns `" ".strip()`, the empty string — so the orchestrator does not
always return a non-empty string. -/
theorem c4_counterexample :
    generate_ai_narrative (fun _ => some (lit " ")) (fun _ => []) 1 1 0 50
      (lit "Agri") 30 [] = [] := by
  rfl

/-- C4 (amended): the orchestrator is total (never raises in the model);
when the service fails (exception) or returns empty text it returns the
deterministic fallback, which is non-empty and contains the industry name
and the health score; when the service returns non-empty text the result is
that text stripped of surrounding whitespace (and is therefore empty only
in the all-whitespace case exhibited by the counterexample). -/
theorem c4_amended (svc : List Char → Option (List Char))
    (render : ℚ → List Char) (income expense margin : ℚ) (score : ℤ)
    (industry : List Char) (runway : ℤ) (raw : List Char) :
    ((svc (promptFor render income expense margin score industry runway raw) = none ∨
      svc (promptFor render income expense margin score industry runway raw) = some []) →
      generate_ai_narrative svc render income expense margin score industry runway raw
          = fallbackText render income expense score industry runway ∧
      generate_ai_narrative svc render income expense margin score industry runway raw ≠ [] ∧
      containsSub (generate_ai_narrative svc render income expense margin score industry runway raw) industry ∧
      containsSub (generate_ai_narrative svc render income expense margin score industry runway raw) (intStr score)) ∧
    (∀ t, svc (promptFor render income expense margin score industry runway raw) = some t →
      t ≠ [] →
      generate_ai_narrative svc render income expense margin score industry runway raw
        = pyStrip t) := by
  constructor
  · intro h
    have hfb : generate_ai_narrative svc render income expense margin score
        industry runway raw = fallbackText render income expense score industry runway := by
      rw [generate_ai_narrative]
      rcases h with h | h
      · rw [h]
      · rw [h]
        simp
    rw [hfb]
    exact ⟨rfl, fallbackText_ne_nil render income expense score industry runway,
      fallbackText_contains_industry render income expense score industry runway,
      fallbackText_contains_score render income expense score industry runway⟩
  · intro t ht hne
    rw [generate_ai_narrative, ht]
    exact if_pos hne

/-- C4 witness: with a failing service, the result is non-empty and
contains the industry name. -/
theorem c4_witness :
    generate_ai_narrative (fun _ => none) (fun _ => []) 1 1 0 50
      (lit "Agri") 30 [] ≠ [] ∧
    containsSub (generate_ai_narrative (fun _ => none) (fun _ => []) 1 1 0 50
      (lit "Agri") 30 []) (lit "Agri") := by
  have h := (c4_amended (fun _ => none) (fun _ => []) 1 1 0 50 (lit "Agri")
    30 []).1 (Or.inl rfl)
  exact ⟨h.2.1, h.2.2.1⟩

/-! ## C7 -/

theorem matchPhone_space (rest : List Char) : matchPhone (' ' :: rest) = none := rfl

theorem matchAcc_space (rest : List Char) : matchAcc (' ' :: rest) = none := rfl

theorem matchPan_space (rest : List Char) : matchPan (' ' :: rest) = none := rfl

theorem matchEmail_space (rest : List Char) : matchEmail (' ' :: rest) = none := rfl

theorem subF_spaces (m : List Char → Option Nat) (token : List Char)
    (hm : ∀ rest, m (' ' :: rest) = none) (n f : ℕ) (l : List Char) :
    subF m token (n + f) (List.replicate n ' ' ++ l)
      = List.replicate n ' ' ++ subF m token f l := by
  induction n with
  | zero => simp
  | succ k ih =>
    rw [List.replicate_succ, List.cons_append,
      show k + 1 + f = (k + f) + 1 from by omega]
    simp only [subF, hm, ih]
    rw [List.cons_append]

theorem subAccF_spaces (token : List Char) (n f : ℕ) (l : List Char) :
    subAccF token (n + f) false (List.replicate n ' ' ++ l)
      = List.replicate n ' ' ++ subAccF token f false l := by
  induction n with
  | zero => simp
  | succ k ih =>
    rw [List.replicate_succ, List.cons_append,
      show k + 1 + f = (k + f) + 1 from by omega]
    simp only [subAccF, matchAcc_space, if_neg, ih]
    rw [show isWordC ' ' = false from rfl]
    simp only [Bool.false_eq_true, if_false, ih]
    rw [List.cons_append]

theorem mask_pii_pipeline (text : List Char) (h : text ≠ []) :
    mask_pii text =
      subF matchEmail (lit "[EMAIL_HIDDEN]")
        (subF matchPan (lit "[PAN_HIDDEN]")
          (subAccF (lit "[ACC_HIDDEN]")
            (subF matchPhone (lit "[PHONE_HIDDEN]") text.length text).length false
            (subF matchPhone (lit "[PHONE_HIDDEN]") text.length text)).length
          (subAccF (lit "[ACC_HIDDEN]")
            (subF matchPhone (lit "[PHONE_HIDDEN]") text.length text).length false
            (subF matchPhone (lit "[PHONE_HIDDEN]") text.length text))).length
        (subF matchPan (lit "[PAN_HIDDEN]")
          (subAccF (lit "[ACC_HIDDEN]")
            (subF matchPhone (lit "[PHONE_HIDDEN]") text.length text).length false
            (subF matchPhone (lit "[PHONE_HIDDEN]") text.length text)).length
          (subAccF (lit "[ACC_HIDDEN]")
            (subF matchPhone (lit "[PHONE_HIDDEN]") text.length text).length false
            (subF matchPhone (lit "[PHONE_HIDDEN]") text.length text))) := by
  rw [mask_pii, if_neg h]

theorem mask_eval_trunc :
    mask_pii (List.replicate 1999 ' ' ++ ['9']) = List.replicate 1999 ' ' ++ ['9'] := by
  have hne : List.replicate 1999 ' ' ++ ['9'] ≠ [] := by simp
  have hlen : (List.replicate 1999 ' ' ++ ['9']).length = 1999 + 1 := by simp
  have h1 : subF matchPhone (lit "[PHONE_HIDDEN]") (1999 + 1)
      (List.replicate 1999 ' ' ++ ['9']) = List.replicate 1999 ' ' ++ ['9'] := by
    rw [subF_spaces matchPhone _ matchPhone_space,
      show subF matchPhone (lit "[PHONE_HIDDEN]") 1 ['9'] = ['9'] from by decide]
  have h2 : subAccF (lit "[ACC_HIDDEN]") (1999 + 1) false
      (List.replicate 1999 ' ' ++ ['9']) = List.replicate 1999 ' ' ++ ['9'] := by
    rw [subAccF_spaces,
      show subAccF (lit "[ACC_HIDDEN]") 1 false ['9'] = ['9'] from by decide]
  have h3 : subF matchPan (lit "[PAN_HIDDEN]") (1999 + 1)
      (List.replicate 1999 ' ' ++ ['9']) = List.replicate 1999 ' ' ++ ['9'] := by
    rw [subF_spaces matchPan _ matchPan_space,
      show subF matchPan (lit "[PAN_HIDDEN]") 1 ['9'] = ['9'] from by decide]
  have h4 : subF matchEmail (lit "[EMAIL_HIDDEN]") (1999 + 1)
      (List.replicate 1999 ' ' ++ ['9']) = List.replicate 1999 ' ' ++ ['9'] := by
    rw [subF_spaces matchEmail _ matchEmail_space,
      show subF matchEmail (lit "[EMAIL_HIDDEN]") 1 ['9'] = ['9'] from by decide]
  rw [mask_pii_pipeline _ hne]
  rw [hlen, h1, hlen, h2, hlen, h3, hlen, h4]

theorem mask_eval_full :
    mask_pii (List.replicate 1999 ' ' ++ lit "9876543210")
      = List.replicate 1999 ' ' ++ lit "[PHONE_HIDDEN]" := by
  have hne : List.replicate 1999 ' ' ++ lit "9876543210" ≠ [] := by simp
  have hlenX : (List.replicate 1999 ' ' ++ lit "9876543210").length = 1999 + 10 := by
    rw [List.length_append, List.length_replicate,
      show (lit "9876543210").length = 10 from rfl]
  have hlenY : (List.replicate 1999 ' ' ++ lit "[PHONE_HIDDEN]").length = 1999 + 14 := by
    rw [List.length_append, List.length_replicate,
      show (lit "[PHONE_HIDDEN]").length = 14 from rfl]
  have h1 : subF matchPhone (lit "[PHONE_HIDDEN]") (1999 + 10)
      (List.replicate 1999 ' ' ++ lit "9876543210")
      = List.replicate 1999 ' ' ++ lit "[PHONE_HIDDEN]" := by
    rw [subF_spaces matchPhone _ matchPhone_space,
      show subF matchPhone (lit "[PHONE_HIDDEN]") 10 (lit "9876543210")
        = lit "[PHONE_HIDDEN]" from by decide]
  have h2 : subAccF (lit "[ACC_HIDDEN]") (1999 + 14) false
      (List.replicate 1999 ' ' ++ lit "[PHONE_HIDDEN]")
      = List.replicate 1999 ' ' ++ lit "[PHONE_HIDDEN]" := by
    rw [subAccF_spaces,
      show subAccF (lit "[ACC_HIDDEN]") 14 false (lit "[PHONE_HIDDEN]")
        = lit "[PHONE_HIDDEN]" from by decide]
  have h3 : subF matchPan (lit "[PAN_HIDDEN]") (1999 + 14)
      (List.replicate 1999 ' ' ++ lit "[PHONE_HIDDEN]")
      = List.replicate 1999 ' ' ++ lit "[PHONE_HIDDEN]" := by
    rw [subF_spaces matchPan _ matchPan_space,
      show subF matchPan (lit "[PAN_HIDDEN]") 14 (lit "[PHONE_HIDDEN]")
        = lit "[PHONE_HIDDEN]" from by decide]
  have h4 : subF matchEmail (lit "[EMAIL_HIDDEN]") (1999 + 14)
      (List.replicate 1999 ' ' ++ lit "[PHONE_HIDDEN]")
      = List.replicate 1999 ' ' ++ lit "[PHONE_HIDDEN]" := by
    rw [subF_spaces matchEmail _ matchEmail_space,
      show subF matchEmail (lit "[EMAIL_HIDDEN]") 14 (lit "[PHONE_HIDDEN]")
        = lit "[PHONE_HIDDEN]" from by decide]
  rw [mask_pii_pipeline _ hne]
  rw [hlenX, h1, hlenY, h2, hlenY, h3, hlenY, h4]

theorem take_2000_witness :
    List.take 2000 (List.replicate 1999 ' ' ++ lit "9876543210")
      = List.replicate 1999 ' ' ++ ['9'] := by
  rw [List.take_append_eq_append_take, List.take_replicate, List.length_replicate]
  rw [show min 2000 1999 = 1999 from by norm_num,
    show (2000 : ℕ) - 1999 = 1 from by norm_num,
    show List.take 1 (lit "9876543210") = ['9'] from rfl]

/-- C7: the sample embedded in the narrative prompt is exactly the PII mask
applied to the first 2000 characters of the raw sample (truncation before
masking); and there is a raw sample — 1999 filler characters followed by a
phone number — where the truncated mask leaves the partial digit '9' of the
phone number in the prompt, while masking the full sample would have hidden
every digit. -/
theorem c7_truncate_before_mask :
    (∀ (render : ℚ → List Char) (income expense margin : ℚ) (score : ℤ)
        (industry : List Char) (runway : ℤ) (raw : List Char),
      containsSub (promptFor render income expense margin score industry runway raw)
        (mask_pii (List.take 2000 raw))) ∧
    (∃ raw : List Char, '9' ∈ mask_pii (List.take 2000 raw) ∧
      '9' ∉ mask_pii raw) := by
  constructor
  · intro render income expense margin score industry runway raw
    exact ⟨lit "You are a Senior Financial SME Consultant. Write a high-value Strategic Audit Report for a business in the " ++
      industry ++ lit " sector.\n\nMETRICS:\n- Monthly Revenue: INR " ++
      render income ++ lit "\n- Monthly Expenses: INR " ++ render expense ++
      lit "\n- Profit Margin: " ++ render (pyRound2 (margin * 100)) ++
      lit "%\n- Health Score: " ++ intStr score ++
      lit "/100\n- Est. Cash Runway: " ++ intStr runway ++
      lit " Days\n\nCONTEXTUAL DATA:\n",
      lit "\n\nSTRUCTURE YOUR RESPONSE EXACTLY LIKE THIS:\n1. RISK ANALYSIS: Detailed breakdown of the score and burn rate.\n2. 3-MONTH FORECAST: Specific predictions based on the runway.\n3. GROWTH STRATEGY: One industry-specific cost saving and one expansion tip.\n", rfl⟩
  · refine ⟨List.replicate 1999 ' ' ++ lit "9876543210", ?_, ?_⟩
    · rw [take_2000_witness, mask_eval_trunc]
      exact List.mem_append_right _ (by decide)
    · rw [mask_eval_full]
      intro h
      rcases List.mem_append.mp h with h | h
      · exact absurd (List.eq_of_mem_replicate h) (by decide)
      · exact absurd h (by decide)

/-! ## C3 -/

/-- C3: the masker violates the claimed post-condition.  On the input
"123456789ABCDE1234F" no pass matches the 9 digits (the account pass sees
no word boundary before 'A'), but the later PAN pass replaces
"ABCDE1234F" and thereby creates the boundary: the output
"123456789[PAN_HIDDEN]" still contains the whole-token 9-digit account
pattern `\b\d{9,18}\b`. -/
theorem c3_mask_leftover :
    mask_pii (lit "123456789ABCDE1234F") = lit "123456789[PAN_HIDDEN]" ∧
    hasAccPattern (mask_pii (lit "123456789ABCDE1234F")) = true := by
  constructor
  · decide
  · decide

/-! ## C5 -/

theorem natVal_go (b : List Char) :
    ∀ n : ℕ, b.foldl (fun m c => 10 * m + (c.toNat - 48)) n
      = n * 10 ^ b.length + natVal b := by
  induction b with
  | nil => intro n; simp [natVal]
  | cons c cs ih =>
    intro n
    have hv : natVal (c :: cs)
        = (10 * 0 + (c.toNat - 48)) * 10 ^ cs.length + natVal cs := by
      conv_lhs => rw [natVal, List.foldl_cons]
      exact ih _
    rw [List.foldl_cons, ih, hv]
    simp only [List.length_cons]
    ring

theorem natVal_append (a b : List Char) :
    natVal (a ++ b) = natVal a * 10 ^ b.length + natVal b := by
  rw [natVal, List.foldl_append, ← natVal, natVal_go]

theorem dropWhile_head_false {p : Char → Bool} :
    ∀ {l : List Char} {c : Char} {r : List Char},
      l.dropWhile p = c :: r → p c = false := by
  intro l
  induction l with
  | nil => intro c r h; simp [List.dropWhile] at h
  | cons x xs ih =>
    intro c r h
    rw [List.dropWhile_cons] at h
    split at h
    · exact ih h
    · obtain ⟨h1, h2⟩ := List.cons.injEq .. ▸ h
      subst h1
      simpa using ‹¬ p x = true›

theorem dropWhile_append_all {q : Char → Bool} {a : List Char}
    (h : ∀ c ∈ a, q c = true) (l : List Char) :
    (a ++ l).dropWhile q = l.dropWhile q := by
  induction a with
  | nil => simp
  | cons x xs ih =>
    rw [List.cons_append, List.dropWhile_cons, if_pos (h x (List.mem_cons_self x xs))]
    exact ih (fun c hc => h c (List.mem_cons_of_mem x hc))

theorem isDecCore_digits {a : List Char} (h : ∀ c ∈ a, Char.isDigit c = true)
    (hne : a ≠ []) : isDecCore a = true := by
  rw [isDecCore, Bool.and_eq_true, Bool.and_eq_true]
  refine ⟨⟨?_, ?_⟩, ?_⟩
  · rw [List.all_eq_true]
    intro x hx
    simp [h x hx]
  · have hz : a.count '.' = 0 := by
      rw [List.count_eq_zero]
      intro hdot
      exact absurd (h '.' hdot) (by decide)
    simp [hz]
  · rw [List.any_eq_true]
    rcases a with _ | ⟨x, xs⟩
    · exact absurd rfl hne
    · exact ⟨x, List.mem_cons_self x xs, h x (List.mem_cons_self x xs)⟩

theorem decCoreVal_digits {a : List Char} (h : ∀ c ∈ a, Char.isDigit c = true) :
    decCoreVal a = natVal a := by
  rw [decCoreVal, afterDot]
  have hfil : a.filter Char.isDigit = a := List.filter_eq_self.mpr h
  have hdw : a.dropWhile (fun c => !(c = '.' : Bool)) = [] := by
    rw [List.dropWhile_eq_nil_iff]
    intro x hx
    by_cases hx' : x = '.'
    · exact absurd (hx' ▸ h x hx) (by decide)
    · simp [hx']
  rw [hfil, hdw]
  simp

theorem isDecCore_dot {a b : List Char} (ha : ∀ c ∈ a, Char.isDigit c = true)
    (hb : ∀ c ∈ b, Char.isDigit c = true) (hne : a ≠ [] ∨ b ≠ []) :
    isDecCore (a ++ '.' :: b) = true := by
  rw [isDecCore, Bool.and_eq_true, Bool.and_eq_true]
  refine ⟨⟨?_, ?_⟩, ?_⟩
  · rw [List.all_eq_true]
    intro x hx
    rcases List.mem_append.mp hx with h | h
    · simp [ha x h]
    · rcases List.mem_cons.mp h with h | h
      · subst h; simp
      · simp [hb x h]
  · have hca : a.count '.' = 0 := by
      rw [List.count_eq_zero]
      intro hdot
      exact absurd (ha '.' hdot) (by decide)
    have hcb : b.count '.' = 0 := by
      rw [List.count_eq_zero]
      intro hdot
      exact absurd (hb '.' hdot) (by decide)
    have : (a ++ '.' :: b).count '.' = 1 := by
      rw [List.count_append, List.count_cons_self, hca, hcb]
    simp [this]
  · rw [List.any_eq_true]
    rcases hne with h | h
    · rcases a with _ | ⟨x, xs⟩
      · exact absurd rfl h
      · exact ⟨x, by simp, ha x (by simp)⟩
    · rcases b with _ | ⟨x, xs⟩
      · exact absurd rfl h
      · exact ⟨x, by simp, hb x (by simp)⟩

theorem decCoreVal_dot {a b : List Char} (ha : ∀ c ∈ a, Char.isDigit c = true)
    (hb : ∀ c ∈ b, Char.isDigit c = true) :
    decCoreVal (a ++ '.' :: b) = (natVal a : ℚ) + (natVal b : ℚ) / 10 ^ b.length := by
  rw [decCoreVal, afterDot]
  have h1 : (a ++ '.' :: b).filter Char.isDigit = a ++ b := by
    rw [List.filter_append, List.filter_eq_self.mpr ha, List.filter_cons]
    simp [List.filter_eq_self.mpr hb]
  have h2 : (a ++ '.' :: b).dropWhile (fun c => !(c = '.' : Bool)) = '.' :: b := by
    rw [dropWhile_append_all (fun c hc => ?_) ('.' :: b), List.dropWhile_cons]
    · simp
    · by_cases hc' : c = '.'
      · exact absurd (hc' ▸ ha c hc) (by decide)
      · simp [hc']
  rw [h1, h2]
  simp only [List.drop_succ_cons, List.drop_zero]
  rw [natVal_append]
  have hpow : (10:ℚ) ^ b.length ≠ 0 := by positivity
  push_cast
  field_simp

theorem isDecCore_nondigit {l : List Char} {c : Char}
    (hcd : Char.isDigit c = false) (hdot : c ≠ '.') (hmem : c ∈ l) :
    isDecCore l = false := by
  rw [isDecCore]
  have hall : l.all (fun x => x.isDigit || x = '.') = false := by
    rcases hb : l.all (fun x => x.isDigit || x = '.') with _ | _
    · rfl
    · have := List.all_eq_true.mp hb c hmem
      rw [Bool.or_eq_true] at this
      rcases this with h | h
      · exact absurd h (by simp [hcd])
      · exact absurd (by simpa using h) hdot
  rw [hall]
  simp

theorem isDecCore_two_dots {a b : List Char}
    (ha : ∀ c ∈ a, Char.isDigit c = true) (hdotb : '.' ∈ b) :
    isDecCore (a ++ '.' :: b) = false := by
  rw [isDecCore]
  have h2 : 2 ≤ (a ++ '.' :: b).count '.' := by
    rw [List.count_append, List.count_cons_self]
    have : 0 < b.count '.' := List.count_pos_iff.mpr hdotb
    omega
  have hlt : ¬ ((a ++ '.' :: b).count '.' ≤ 1) := by omega
  rw [decide_eq_false hlt]
  simp

theorem parseUnsigned_eq_spec (l : List Char) :
    parseUnsigned l = if isDecCore l then some (decCoreVal l) else none := by
  have hsplit := List.takeWhile_append_dropWhile (p := Char.isDigit) (l := l)
  have hadig : ∀ c ∈ l.takeWhile Char.isDigit, Char.isDigit c = true :=
    fun c hc => List.mem_takeWhile_imp hc
  rcases hdrop : l.dropWhile Char.isDigit with _ | ⟨c, b⟩
  · have hl : l.takeWhile Char.isDigit = l := by
      rw [hdrop, List.append_nil] at hsplit
      exact hsplit
    rw [parseUnsigned]
    simp only [hdrop, List.isEmpty_nil, if_true]
    rw [hl] at hadig ⊢
    by_cases hnil : l = []
    · subst hnil
      simp [isDecCore]
    · rw [if_neg (by simpa [List.isEmpty_iff] using hnil),
        if_pos (isDecCore_digits hadig hnil), decCoreVal_digits hadig]
  · have hcd : Char.isDigit c = false := dropWhile_head_false hdrop
    have hl : l = l.takeWhile Char.isDigit ++ c :: b := by
      conv_lhs => rw [← hsplit, hdrop]
    rw [parseUnsigned]
    simp only [hdrop, List.isEmpty_cons, List.head?_cons, List.drop_succ_cons,
      List.drop_zero]
    rw [if_neg (by simp)]
    by_cases hc : c = '.'
    · subst hc
      rw [if_pos rfl]
      by_cases hb : b.all Char.isDigit
      · have hbdig : ∀ x ∈ b, Char.isDigit x = true := List.all_eq_true.mp hb
        by_cases hne : l.takeWhile Char.isDigit ≠ [] ∨ b ≠ []
        · rw [if_pos ⟨hb, hne⟩]
          conv_rhs => rw [hl]
          rw [if_pos (isDecCore_dot hadig hbdig hne), decCoreVal_dot hadig hbdig]
        · push_neg at hne
          rw [if_neg (by tauto)]
          conv_rhs => rw [hl, hne.1, hne.2]
          simp [isDecCore]
      · rw [if_neg (by tauto)]
        obtain ⟨x, hxb, hxd⟩ : ∃ x ∈ b, ¬ Char.isDigit x = true := by
          simpa using hb
        by_cases hx : x = '.'
        · subst hx
          conv_rhs => rw [hl]
          rw [if_neg (by simp [isDecCore_two_dots hadig hxb])]
        · conv_rhs => rw [hl]
          rw [if_neg (by simp [isDecCore_nondigit (l := l.takeWhile Char.isDigit ++ '.' :: b)
            (by simpa using hxd) hx
            (List.mem_append_right _ (List.mem_cons_of_mem _ hxb))])]
    · rw [if_neg (by simp [hc])]
      conv_rhs => rw [hl]
      rw [if_neg (by simp [isDecCore_nondigit (l := l.takeWhile Char.isDigit ++ c :: b) hcd hc
        (List.mem_append_right _ (List.mem_cons_self c b))])]

theorem parseFloatPy_eq_spec (res : List Char) :
    parseFloatPy res
      = (if isDecCore (if res.head? = some '-' then res.drop 1 else res)
          then some ((if res.head? = some '-' then (-1:ℚ) else 1)
            * decCoreVal (if res.head? = some '-' then res.drop 1 else res))
          else none) := by
  rw [parseFloatPy]
  by_cases h : res.head? = some '-'
  · rw [if_pos h, if_pos h, if_pos h, parseUnsigned_eq_spec]
    split_ifs with hd
    · simp
    · simp
  · rw [if_neg h, if_neg h, if_neg h, parseUnsigned_eq_spec]
    split_ifs with hd
    · simp
    · rfl

/-- C5: `clean_num` is total in the model and agrees everywhere with the
spec-side description: strip every character that is not a digit, `.` or
`-`, parse the remainder as a decimal with one optional leading sign, and
return `0.0` on any parse failure (empty residue, malformed number,
multiple sign characters). -/
theorem c5_clean_num_total (v : Option (List Char)) :
    clean_num v = clean_num_spec v := by
  cases v with
  | none => rfl
  | some s =>
    rw [clean_num, clean_num_spec, parseFloatPy_eq_spec]
    split_ifs <;> rfl
